import Mathlib

/-!
Shallow embedding of the ink! contract `simple_token` (src/lib.rs).

The contract stores a token ledger (`SimpleToken`) and exposes the
`#[ink(message)]` entry points `mint`, `balance_of`, `transfer`,
`total_supply`, `get_owner`, plus the `#[ink(constructor)]` `new`.

Modelling choices:
* `AccountId` is modelled as `Nat` (opaque, comparable identity).
* `u128` values are `Nat` together with explicit checked arithmetic that
  fails above `U128_MAX = 2^128 - 1`, mirroring `checked_add`/`checked_sub`.
* `ink::storage::Mapping` is modelled as an association list with
  get-or-default reads (`unwrap_or(0)` / `unwrap_or(false)`) and
  replace-or-append insertion.
* Each message body is translated statement by statement into a state-passing
  function returning `(Except Error Unit) × SimpleToken`; these are the
  `*_body` definitions.  ink! (since version 4.0) reverts every state change
  made by a message invocation that returns `Err`, so the observable
  message-level semantics is the body followed by `revertOnErr`, which
  restores the pre-state on the error path.  Both layers are kept explicit.
* Events and timestamps are external side effects and are not part of the
  ledger state; they are omitted.
-/

namespace simple_token

/-- Read a key from an association-list mapping, with the default used by the
contract for absent keys (`unwrap_or(0)` resp. `unwrap_or(false)`). -/
def mapGet {κ α : Type} [DecidableEq κ] (m : List (κ × α)) (k : κ) (d : α) : α :=
  match m with
  | [] => d
  | (k0, v0) :: rest => if k0 = k then v0 else mapGet rest k d

/-- Insert a key into an association-list mapping, replacing an existing
binding for the key or appending a fresh one (`Mapping::insert`). -/
def mapInsert {κ α : Type} [DecidableEq κ] (m : List (κ × α)) (k : κ) (v : α) :
    List (κ × α) :=
  match m with
  | [] => [(k, v)]
  | (k0, v0) :: rest => if k0 = k then (k, v) :: rest else (k0, v0) :: mapInsert rest k v

/-- Sum of all stored values of a balance mapping (`sum(balances.values())`). -/
def sumValues (m : List (Nat × Nat)) : Nat :=
  (m.map Prod.snd).sum

/-- Largest value representable in `u128`. -/
def U128_MAX : Nat := 2 ^ 128 - 1

/-- `u128::checked_add`: `none` exactly when the mathematical sum exceeds
`U128_MAX`. -/
def checked_add (x y : Nat) : Option Nat :=
  if x + y ≤ U128_MAX then some (x + y) else none

/-- `u128::checked_sub`: `none` exactly when the subtrahend exceeds the
minuend. -/
def checked_sub (x y : Nat) : Option Nat :=
  if y ≤ x then some (x - y) else none

/-- The contract's error enum (src/lib.rs, `pub enum Error`). -/
inductive Error where
  | InsufficientBalance
  | Unauthorized
  | InvalidAmount
  | Overflow
  | InsufficientAllowance
  | ContractPaused
  | AccountBlacklisted
deriving DecidableEq, Repr

/-- The contract storage (src/lib.rs, `pub struct SimpleToken`). -/
structure SimpleToken where
  owner : Nat
  balances : List (Nat × Nat)
  total_supply : Nat
  allowances : List ((Nat × Nat) × Nat)
  is_paused : Bool
  blacklist : List (Nat × Bool)
deriving DecidableEq, Repr

/-- The constructor `new`: the creating caller becomes owner, every mapping is
empty, total supply is zero, the pause flag is clear. -/
def new (caller : Nat) : SimpleToken :=
  { owner := caller
    balances := []
    total_supply := 0
    allowances := []
    is_paused := false
    blacklist := [] }

/-- Private helper `check_blacklisted`: `self.blacklist.get(account).unwrap_or(false)`. -/
def check_blacklisted (s : SimpleToken) (account : Nat) : Bool :=
  mapGet s.blacklist account false

/-- ink! ≥ 4 reverts all state changes of a message invocation that returns
`Err`; this wrapper applies that framework semantics to a message body's
result, restoring the pre-state `s` on the error path. -/
def revertOnErr (s : SimpleToken) (r : Except Error Unit × SimpleToken) :
    Except Error Unit × SimpleToken :=
  match r with
  | (Except.error e, _) => (Except.error e, s)
  | (Except.ok u, s1) => (Except.ok u, s1)

/-- Body of the message `mint`, translated statement by statement: the
authorization check, the zero-amount check, the checked update of the
recipient balance (written back immediately), then the checked update of the
total supply.  Note that the recipient balance is inserted before the total
supply overflow check, exactly as in the source. -/
def mint_body (s : SimpleToken) (caller to_acc amount : Nat) :
    Except Error Unit × SimpleToken :=
  if caller ≠ s.owner then (Except.error Error.Unauthorized, s)
  else if amount = 0 then (Except.error Error.InvalidAmount, s)
  else
    let current_balance := mapGet s.balances to_acc 0
    match checked_add current_balance amount with
    | none => (Except.error Error.Overflow, s)
    | some new_balance =>
      let s1 : SimpleToken := { s with balances := mapInsert s.balances to_acc new_balance }
      match checked_add s1.total_supply amount with
      | none => (Except.error Error.Overflow, s1)
      | some new_supply => (Except.ok (), { s1 with total_supply := new_supply })

/-- The message `mint` as observable at the contract boundary: the body with
ink!'s revert-on-`Err` semantics applied. -/
def mint (s : SimpleToken) (caller to_acc amount : Nat) :
    Except Error Unit × SimpleToken :=
  revertOnErr s (mint_body s caller to_acc amount)

/-- The message `balance_of`: a pure read returning the stored balance, `0`
when the account has no entry. -/
def balance_of (s : SimpleToken) (account : Nat) : Nat :=
  mapGet s.balances account 0

/-- Body of the message `transfer`, translated statement by statement: pause
check, blacklist check on caller and recipient, zero-amount check, sufficiency
check, then the checked subtraction and checked addition on the two balances
read before either write, and finally both inserts (caller first, recipient
second). -/
def transfer_body (s : SimpleToken) (caller to_acc amount : Nat) :
    Except Error Unit × SimpleToken :=
  if s.is_paused then (Except.error Error.ContractPaused, s)
  else if check_blacklisted s caller || check_blacklisted s to_acc then
    (Except.error Error.AccountBlacklisted, s)
  else if amount = 0 then (Except.error Error.InvalidAmount, s)
  else
    let caller_balance := mapGet s.balances caller 0
    if caller_balance < amount then (Except.error Error.InsufficientBalance, s)
    else
      let to_balance := mapGet s.balances to_acc 0
      match checked_sub caller_balance amount with
      | none => (Except.error Error.Overflow, s)
      | some new_caller_balance =>
        match checked_add to_balance amount with
        | none => (Except.error Error.Overflow, s)
        | some new_to_balance =>
          (Except.ok (),
            { s with balances :=
                mapInsert (mapInsert s.balances caller new_caller_balance) to_acc new_to_balance })

/-- The message `transfer` as observable at the contract boundary: the body
with ink!'s revert-on-`Err` semantics applied. -/
def transfer (s : SimpleToken) (caller to_acc amount : Nat) :
    Except Error Unit × SimpleToken :=
  revertOnErr s (transfer_body s caller to_acc amount)

/-- The message `total_supply`: a pure read of the stored total supply
(renamed from `total_supply` to avoid clashing with the field projection). -/
def total_supply_msg (s : SimpleToken) : Nat :=
  s.total_supply

/-- The message `get_owner`: a pure read of the stored owner. -/
def get_owner (s : SimpleToken) : Nat :=
  s.owner

/-- The state-mutating calls available to external callers: each carries the
authenticated caller identity supplied by the host environment. -/
inductive Op where
  | mint (caller to_acc amount : Nat)
  | transfer (caller to_acc amount : Nat)
deriving DecidableEq, Repr

/-- The account credited by an operation (the `to` argument). -/
def Op.recipient : Op → Nat
  | .mint _ t _ => t
  | .transfer _ t _ => t

/-- Execute one call against the ledger, keeping the resulting state whether
the call succeeded or was rejected (a rejected message leaves the state
unchanged, by `revertOnErr`). -/
def step (s : SimpleToken) : Op → SimpleToken
  | .mint c t a => (mint s c t a).2
  | .transfer c t a => (transfer s c t a).2

/-- Execute a sequence of calls from a starting state. -/
def execTrace (s : SimpleToken) (ops : List Op) : SimpleToken :=
  ops.foldl step s

end simple_token

namespace simple_token

/-- Written from the spec's words for the refinement claim about error
precedence: the first failing `transfer` precondition in the documented
order — pause flag, blacklist of caller or recipient, non-zero amount,
sufficient balance — or `none` when all four preconditions pass. -/
def spec_first_check_error (s : SimpleToken) (caller to_acc amount : Nat) :
    Option Error :=
  if s.is_paused then some Error.ContractPaused
  else if check_blacklisted s caller || check_blacklisted s to_acc then
    some Error.AccountBlacklisted
  else if amount = 0 then some Error.InvalidAmount
  else if balance_of s caller < amount then some Error.InsufficientBalance
  else none

/-- The `#[ink(message)]` entry points of the contract, with their input
signatures (the caller identity is supplied separately by the host).  These
are exactly the public functions marked `#[ink(message)]` in src/lib.rs. -/
inductive Message where
  | mint (to_acc amount : Nat)
  | balance_of (account : Nat)
  | transfer (to_acc amount : Nat)
  | total_supply
  | get_owner
deriving DecidableEq, Repr

/-- The possible return values of the entry points: a `Result<()>` for the
mutating messages, a `u128` amount, or an `AccountId`. -/
inductive Response where
  | unit_result (r : Except Error Unit)
  | amount (n : Nat)
  | account (a : Nat)

/-- The message dispatcher: routes each entry point to the corresponding
operation, threading the caller identity supplied by the host environment.
The read-only messages leave the state untouched. -/
def dispatch (s : SimpleToken) (caller : Nat) : Message → Response × SimpleToken
  | .mint t a => (Response.unit_result (mint s caller t a).1, (mint s caller t a).2)
  | .balance_of acc => (Response.amount (balance_of s acc), s)
  | .transfer t a => (Response.unit_result (transfer s caller t a).1, (transfer s caller t a).2)
  | .total_supply => (Response.amount (total_supply_msg s), s)
  | .get_owner => (Response.account (get_owner s), s)

/-- The names of the functions marked `#[ink(message)]` in src/lib.rs, in
source order. -/
def ink_messages : List String :=
  ["mint", "balance_of", "transfer", "total_supply", "get_owner"]

/-- Reading back the key just inserted yields the inserted value. -/
theorem mapGet_mapInsert_self {κ α : Type} [DecidableEq κ]
    (m : List (κ × α)) (k : κ) (v : α) (d : α) :
    mapGet (mapInsert m k v) k d = v := by
  induction m with
  | nil => simp [mapGet, mapInsert]
  | cons hd tl ih =>
    obtain ⟨k0, v0⟩ := hd
    by_cases h : k0 = k
    · simp [mapGet, mapInsert, h]
    · simp [mapGet, mapInsert, h, ih]

/-- Reading a key other than the one inserted is unchanged by the insert. -/
theorem mapGet_mapInsert_ne {κ α : Type} [DecidableEq κ]
    (m : List (κ × α)) (k k' : κ) (v : α) (d : α) (h : k ≠ k') :
    mapGet (mapInsert m k v) k' d = mapGet m k' d := by
  induction m with
  | nil => simp [mapGet, mapInsert, h]
  | cons hd tl ih =>
    obtain ⟨k0, v0⟩ := hd
    by_cases h0 : k0 = k
    · subst h0
      simp [mapGet, mapInsert, h]
    · simp only [mapInsert, mapGet, if_neg h0]
      by_cases h1 : k0 = k'
      · simp [mapGet, h1]
      · simp [mapGet, h1, ih]

/-- A message result produced by `revertOnErr` that carries an error also
carries the unchanged pre-state. -/
theorem revertOnErr_error (s : SimpleToken) (p : Except Error Unit × SimpleToken)
    (e : Error) (h : (revertOnErr s p).1 = Except.error e) :
    (revertOnErr s p).2 = s := by
  obtain ⟨r, s1⟩ := p
  cases r with
  | error e0 => rfl
  | ok u => simp [revertOnErr] at h

end simple_token

namespace simple_token

/-- C7: for every state and every caller that is not the administrator,
`mint` fails with `Unauthorized` and returns the state completely unchanged
(in particular every balance and the total supply are unchanged). -/
theorem mint_nonowner_unauthorized_unchanged (s : SimpleToken)
    (caller to_acc amount : Nat) (h : caller ≠ s.owner) :
    mint s caller to_acc amount = (Except.error Error.Unauthorized, s) := by
  simp [mint, mint_body, revertOnErr, h]

/-- Witness for C7: from the empty ledger owned by account `0`, a mint
attempted by account `1` fails with `Unauthorized` and the total supply
stays `0`. -/
theorem mint_nonowner_unauthorized_unchanged_witness :
    mint (new 0) 1 2 100 = (Except.error Error.Unauthorized, new 0) ∧
    total_supply_msg (mint (new 0) 1 2 100).2 = 0 := by
  have h := mint_nonowner_unauthorized_unchanged (new 0) 1 2 100 (by decide)
  exact ⟨h, by rw [h]; rfl⟩

/-- C2: whenever `mint` or `transfer` returns an error, the post-state equals
the pre-state in every component (balances, allowances, blacklist, pause
flag, total supply) — ink! reverts all state changes of a message that
returns `Err`, which `revertOnErr` makes explicit. -/
theorem rejected_message_leaves_state_unchanged (s : SimpleToken)
    (caller to_acc amount : Nat) (e : Error) :
    ((mint s caller to_acc amount).1 = Except.error e →
       (mint s caller to_acc amount).2 = s) ∧
    ((transfer s caller to_acc amount).1 = Except.error e →
       (transfer s caller to_acc amount).2 = s) :=
  ⟨revertOnErr_error s (mint_body s caller to_acc amount) e,
   revertOnErr_error s (transfer_body s caller to_acc amount) e⟩

/-- Witness for C2: a rejected mint (unauthorized caller) and a rejected
transfer (insufficient balance) both leave the empty ledger unchanged. -/
theorem rejected_message_leaves_state_unchanged_witness :
    (mint (new 0) 1 2 5).2 = new 0 ∧ (transfer (new 0) 1 2 5).2 = new 0 :=
  ⟨(rejected_message_leaves_state_unchanged (new 0) 1 2 5 Error.Unauthorized).1 rfl,
   (rejected_message_leaves_state_unchanged (new 0) 1 2 5 Error.InsufficientBalance).2 rfl⟩

/-- C1: the conservation invariant `total_supply = sum(balances.values())`
fails on a reachable state.  From the fresh ledger, `mint(owner, 1, 50)`
followed by the successful self-transfer `transfer(1, 1, 50)` yields a state
whose total supply is `50` while its balances sum to `100`: the self-transfer
credits the stale pre-debit balance, doubling the account's funds. -/
theorem conservation_violated_by_self_transfer :
    (transfer (execTrace (new 0) [Op.mint 0 1 50]) 1 1 50).1 = Except.ok () ∧
    (execTrace (new 0) [Op.mint 0 1 50, Op.transfer 1 1 50]).total_supply = 50 ∧
    sumValues (execTrace (new 0) [Op.mint 0 1 50, Op.transfer 1 1 50]).balances = 100 ∧
    (execTrace (new 0) [Op.mint 0 1 50, Op.transfer 1 1 50]).total_supply ≠
      sumValues (execTrace (new 0) [Op.mint 0 1 50, Op.transfer 1 1 50]).balances :=
  ⟨rfl, rfl, rfl, by decide⟩

/-- C3: a transfer that passes the pause, blacklist, non-zero-amount and
sufficient-balance preconditions can still return `Overflow`: after
`mint(owner, 1, u128::MAX)`, the self-transfer `transfer(1, 1, u128::MAX)`
passes all four preconditions yet is rejected with `Overflow`, because the
checked addition uses the recipient balance read before the debit. -/
theorem transfer_overflow_despite_preconditions :
    (mint (new 0) 0 1 U128_MAX).2.is_paused = false ∧
    check_blacklisted (mint (new 0) 0 1 U128_MAX).2 1 = false ∧
    U128_MAX ≠ 0 ∧
    U128_MAX ≤ balance_of (mint (new 0) 0 1 U128_MAX).2 1 ∧
    (transfer (mint (new 0) 0 1 U128_MAX).2 1 1 U128_MAX).1 =
      Except.error Error.Overflow :=
  ⟨rfl, rfl, by decide, by decide, rfl⟩

end simple_token

namespace simple_token

/-- C5: `transfer` checks its preconditions in the order pause flag,
blacklist (caller or recipient), non-zero amount, sufficient balance, and
whenever some precondition fails the error returned is the one belonging to
the first failing precondition in that order. -/
theorem transfer_first_failing_precondition (s : SimpleToken)
    (caller to_acc amount : Nat) (e : Error)
    (h : spec_first_check_error s caller to_acc amount = some e) :
    (transfer s caller to_acc amount).1 = Except.error e := by
  cases hp : s.is_paused with
  | true =>
    simp [spec_first_check_error, hp] at h
    subst h
    simp [transfer, transfer_body, revertOnErr, hp]
  | false =>
    cases hbl : (check_blacklisted s caller || check_blacklisted s to_acc) with
    | true =>
      simp [spec_first_check_error, hp, hbl] at h
      subst h
      simp [transfer, transfer_body, revertOnErr, hp, hbl]
    | false =>
      by_cases h2 : amount = 0
      · simp [spec_first_check_error, hp, hbl, h2] at h
        subst h
        simp [transfer, transfer_body, revertOnErr, hp, hbl, h2]
      · by_cases h3 : balance_of s caller < amount
        · have h3' : mapGet s.balances caller 0 < amount := h3
          simp [spec_first_check_error, hp, hbl, h2, h3] at h
          subst h
          simp [transfer, transfer_body, revertOnErr, hp, hbl, h2, h3']
        · simp [spec_first_check_error, hp, hbl, h2, h3] at h

/-- Witness for C5: a zero-amount transfer on the fresh unpaused ledger is
rejected with `InvalidAmount`, the error of the first failing check. -/
theorem transfer_first_failing_precondition_witness :
    (transfer (new 0) 1 2 0).1 = Except.error Error.InvalidAmount :=
  transfer_first_failing_precondition (new 0) 1 2 0 Error.InvalidAmount (by decide)

/-- C6: an owner mint of a non-zero amount succeeds when neither the
recipient-balance addition nor the total-supply addition overflows `u128`,
increasing both by the amount; when either addition would overflow, the
whole call fails with `Overflow` and the state is returned unchanged. -/
theorem mint_by_owner_correct (s : SimpleToken) (caller to_acc amount : Nat)
    (hc : caller = s.owner) (ha : amount ≠ 0) :
    ((balance_of s to_acc + amount ≤ U128_MAX ∧ s.total_supply + amount ≤ U128_MAX) →
       (mint s caller to_acc amount).1 = Except.ok () ∧
       balance_of (mint s caller to_acc amount).2 to_acc = balance_of s to_acc + amount ∧
       (mint s caller to_acc amount).2.total_supply = s.total_supply + amount) ∧
    ((U128_MAX < balance_of s to_acc + amount ∨ U128_MAX < s.total_supply + amount) →
       mint s caller to_acc amount = (Except.error Error.Overflow, s)) := by
  constructor
  · rintro ⟨hb, ht⟩
    have hb' : mapGet s.balances to_acc 0 + amount ≤ U128_MAX := hb
    refine ⟨?_, ?_, ?_⟩ <;>
      simp [mint, mint_body, revertOnErr, checked_add, balance_of, hc, ha, hb', ht,
        mapGet_mapInsert_self]
  · intro hover
    rcases hover with hb | ht
    · have hb' : ¬ (mapGet s.balances to_acc 0 + amount ≤ U128_MAX) := Nat.not_le.mpr hb
      simp [mint, mint_body, revertOnErr, checked_add, hc, ha, hb']
    · have ht' : ¬ (s.total_supply + amount ≤ U128_MAX) := Nat.not_le.mpr ht
      by_cases hb2 : mapGet s.balances to_acc 0 + amount ≤ U128_MAX
      · simp [mint, mint_body, revertOnErr, checked_add, hc, ha, hb2, ht']
      · simp [mint, mint_body, revertOnErr, checked_add, hc, ha, hb2]

/-- Witness for C6: on the empty ledger owned by `0`, `mint(0, 1, 100)`
succeeds, the recipient balance becomes `100` and the total supply becomes
`100` — the spec's concrete example. -/
theorem mint_by_owner_correct_witness :
    (mint (new 0) 0 1 100).1 = Except.ok () ∧
    balance_of (mint (new 0) 0 1 100).2 1 = 100 ∧
    (mint (new 0) 0 1 100).2.total_supply = 100 := by
  have h := (mint_by_owner_correct (new 0) 0 1 100 rfl (by decide)).1
    ⟨by decide, by decide⟩
  exact ⟨h.1, by simpa using h.2.1, by simpa using h.2.2⟩

/-- C8: while the pause flag is set every `transfer` call fails with
`ContractPaused` leaving the state unchanged, whereas `mint` is oblivious to
the pause flag: its result and its effect on every other storage field are
identical whatever the flag's value. -/
theorem paused_blocks_transfer_but_not_mint (s : SimpleToken)
    (caller to_acc amount : Nat) :
    (s.is_paused = true →
       transfer s caller to_acc amount = (Except.error Error.ContractPaused, s)) ∧
    (∀ b : Bool,
       mint { s with is_paused := b } caller to_acc amount =
         ((mint s caller to_acc amount).1,
          { (mint s caller to_acc amount).2 with is_paused := b })) := by
  constructor
  · intro hp
    simp [transfer, transfer_body, revertOnErr, hp]
  · intro b
    obtain ⟨o, bal, ts, al, ip, bl⟩ := s
    by_cases h1 : caller ≠ o
    · simp [mint, mint_body, revertOnErr, h1]
    · by_cases h2 : amount = 0
      · simp [mint, mint_body, revertOnErr, h1, h2]
      · cases hadd : checked_add (mapGet bal to_acc 0) amount with
        | none => simp [mint, mint_body, revertOnErr, h1, h2, hadd]
        | some nb =>
          cases hadd2 : checked_add ts amount with
          | none => simp [mint, mint_body, revertOnErr, h1, h2, hadd, hadd2]
          | some ns => simp [mint, mint_body, revertOnErr, h1, h2, hadd, hadd2]

/-- Witness for C8: on the ledger owned by `0` with the pause flag forced on,
a transfer is rejected with `ContractPaused`, while the result of
`mint(0, 1, 5)` is the same as on the unpaused ledger. -/
theorem paused_blocks_transfer_but_not_mint_witness :
    transfer { new 0 with is_paused := true } 1 2 5 =
      (Except.error Error.ContractPaused, { new 0 with is_paused := true }) ∧
    (mint { new 0 with is_paused := true } 0 1 5).1 = (mint (new 0) 0 1 5).1 := by
  refine ⟨(paused_blocks_transfer_but_not_mint { new 0 with is_paused := true } 1 2 5).1 rfl, ?_⟩
  have h := (paused_blocks_transfer_but_not_mint (new 0) 0 1 5).2 true
  have h2 := congrArg Prod.fst h
  exact h2

end simple_token

namespace simple_token

/-- Counterexample for C4 as stated: the claim quantifies over every state
with `balance_of(A) = 50` and promises a post-state with `balance_of(B) = 50`,
but when `B` already holds tokens the transfer credits on top of them.  After
`mint(owner, 1, 50)` and `mint(owner, 2, 10)`, `transfer(1, 2, 50)` succeeds
and leaves account `2` with `60`, not `50`. -/
theorem claim_c4_counterexample :
    balance_of (execTrace (new 0) [Op.mint 0 1 50, Op.mint 0 2 10]) 1 = 50 ∧
    (transfer (execTrace (new 0) [Op.mint 0 1 50, Op.mint 0 2 10]) 1 2 50).1 =
      Except.ok () ∧
    balance_of (transfer (execTrace (new 0) [Op.mint 0 1 50, Op.mint 0 2 10]) 1 2 50).2 2
      = 60 ∧
    balance_of (transfer (execTrace (new 0) [Op.mint 0 1 50, Op.mint 0 2 10]) 1 2 50).2 2
      ≠ 50 :=
  ⟨rfl, rfl, rfl, by decide⟩

/-- C4 as amended: when additionally `balance_of(B) = 0`, `A ≠ B`, the
contract is not paused and neither party is blacklisted, `transfer(A, B, 50)`
succeeds and yields `balance_of(A) = 0`, `balance_of(B) = 50` with the total
supply unchanged. -/
theorem transfer_fifty_correct (s : SimpleToken) (A B : Nat)
    (hA : balance_of s A = 50) (hB : balance_of s B = 0) (hAB : A ≠ B)
    (hp : s.is_paused = false)
    (hbA : check_blacklisted s A = false) (hbB : check_blacklisted s B = false) :
    (transfer s A B 50).1 = Except.ok () ∧
    balance_of (transfer s A B 50).2 A = 0 ∧
    balance_of (transfer s A B 50).2 B = 50 ∧
    (transfer s A B 50).2.total_supply = s.total_supply := by
  have hA' : mapGet s.balances A 0 = 50 := hA
  have hB' : mapGet s.balances B 0 = 0 := hB
  have h50 : 0 + 50 ≤ U128_MAX := by decide
  have hres : transfer s A B 50 =
      (Except.ok (), { s with balances := mapInsert (mapInsert s.balances A 0) B 50 }) := by
    simp [transfer, transfer_body, revertOnErr, checked_sub, checked_add,
      hp, hbA, hbB, hA', hB', h50]
  refine ⟨by rw [hres], ?_, ?_, by rw [hres]⟩
  · rw [hres]
    show mapGet (mapInsert (mapInsert s.balances A 0) B 50) A 0 = 0
    rw [mapGet_mapInsert_ne (mapInsert s.balances A 0) B A 50 0 (Ne.symm hAB)]
    exact mapGet_mapInsert_self s.balances A 0 0
  · rw [hres]
    exact mapGet_mapInsert_self (mapInsert s.balances A 0) B 50 0

/-- Witness for C4's amended claim: on the ledger holding exactly 50 tokens
for account `1`, `transfer(1, 2, 50)` succeeds and moves the full balance. -/
theorem transfer_fifty_correct_witness :
    (transfer { new 0 with balances := [(1, 50)], total_supply := 50 } 1 2 50).1 =
      Except.ok () ∧
    balance_of (transfer { new 0 with balances := [(1, 50)], total_supply := 50 } 1 2 50).2 1
      = 0 ∧
    balance_of (transfer { new 0 with balances := [(1, 50)], total_supply := 50 } 1 2 50).2 2
      = 50 ∧
    (transfer { new 0 with balances := [(1, 50)], total_supply := 50 } 1 2 50).2.total_supply
      = ({ new 0 with balances := [(1, 50)], total_supply := 50 } : SimpleToken).total_supply :=
  transfer_fifty_correct { new 0 with balances := [(1, 50)], total_supply := 50 } 1 2
    rfl rfl (by decide) rfl rfl rfl

/-- Counterexample for C9 as stated: the claim lists `approve`,
`transfer_from`, `burn`, `set_paused` and `blacklist` among the exposed entry
points, but none of them is among the functions marked `#[ink(message)]` in
the source. -/
theorem claim_c9_counterexample :
    "approve" ∉ ink_messages ∧ "transfer_from" ∉ ink_messages ∧
    "burn" ∉ ink_messages ∧ "set_paused" ∉ ink_messages ∧
    "blacklist" ∉ ink_messages := by
  decide

/-- C9 as amended: the Ledger exposes exactly the entry points `mint`,
`balance_of`, `transfer`, `total_supply` and `get_owner` — every invocable
message is one of those five, each dispatched to the corresponding operation —
and construction takes no argument beyond the implicit creator identity,
producing the zeroed state owned by the creator. -/
theorem ledger_public_surface :
    (∀ m : Message,
       (∃ t a, m = Message.mint t a) ∨
       (∃ acc, m = Message.balance_of acc) ∨
       (∃ t a, m = Message.transfer t a) ∨
       m = Message.total_supply ∨ m = Message.get_owner) ∧
    (∀ s caller t a, dispatch s caller (Message.mint t a) =
       (Response.unit_result (mint s caller t a).1, (mint s caller t a).2)) ∧
    (∀ s caller acc, dispatch s caller (Message.balance_of acc) =
       (Response.amount (balance_of s acc), s)) ∧
    (∀ s caller t a, dispatch s caller (Message.transfer t a) =
       (Response.unit_result (transfer s caller t a).1, (transfer s caller t a).2)) ∧
    (∀ s caller, dispatch s caller Message.total_supply =
       (Response.amount (total_supply_msg s), s)) ∧
    (∀ s caller, dispatch s caller Message.get_owner =
       (Response.account (get_owner s), s)) ∧
    (∀ caller : Nat, new caller =
       { owner := caller, balances := [], total_supply := 0, allowances := [],
         is_paused := false, blacklist := [] }) := by
  refine ⟨?_, fun _ _ _ _ => rfl, fun _ _ _ => rfl, fun _ _ _ _ => rfl,
    fun _ _ => rfl, fun _ _ => rfl, fun _ => rfl⟩
  intro m
  cases m with
  | mint t a => exact Or.inl ⟨t, a, rfl⟩
  | balance_of acc => exact Or.inr (Or.inl ⟨acc, rfl⟩)
  | transfer t a => exact Or.inr (Or.inr (Or.inl ⟨t, a, rfl⟩))
  | total_supply => exact Or.inr (Or.inr (Or.inr (Or.inl rfl)))
  | get_owner => exact Or.inr (Or.inr (Or.inr (Or.inr rfl)))

end simple_token

namespace simple_token

/-- One call whose recipient is not `acc` cannot give `acc` a non-zero
balance: a mint writes only the recipient's entry, and a transfer out of
`acc` requires a positive balance, so it is rejected (and reverted) when
`acc` holds nothing. -/
theorem balance_zero_step (s : SimpleToken) (op : Op) (acc : Nat)
    (h0 : balance_of s acc = 0) (hr : Op.recipient op ≠ acc) :
    balance_of (step s op) acc = 0 := by
  have h0' : mapGet s.balances acc 0 = 0 := h0
  cases op with
  | mint c t a =>
    have ht : t ≠ acc := hr
    by_cases h1 : c ≠ s.owner
    · simpa [step, mint, mint_body, revertOnErr, h1] using h0
    · by_cases h2 : a = 0
      · simpa [step, mint, mint_body, revertOnErr, h1, h2] using h0
      · cases hadd : checked_add (mapGet s.balances t 0) a with
        | none => simpa [step, mint, mint_body, revertOnErr, h1, h2, hadd] using h0
        | some nb =>
          cases hadd2 : checked_add s.total_supply a with
          | none => simpa [step, mint, mint_body, revertOnErr, h1, h2, hadd, hadd2] using h0
          | some ns =>
            simp [step, mint, mint_body, revertOnErr, h1, h2, hadd, hadd2, balance_of]
            rw [mapGet_mapInsert_ne s.balances t acc nb 0 ht]
            exact h0'
  | transfer c t a =>
    have ht : t ≠ acc := hr
    cases hp : s.is_paused with
    | true => simpa [step, transfer, transfer_body, revertOnErr, hp] using h0
    | false =>
      cases hbl : (check_blacklisted s c || check_blacklisted s t) with
      | true => simpa [step, transfer, transfer_body, revertOnErr, hp, hbl] using h0
      | false =>
        by_cases h2 : a = 0
        · simpa [step, transfer, transfer_body, revertOnErr, hp, hbl, h2] using h0
        · by_cases h3 : mapGet s.balances c 0 < a
          · simpa [step, transfer, transfer_body, revertOnErr, hp, hbl, h2, h3] using h0
          · have hc : c ≠ acc := by
              intro hceq
              subst hceq
              rw [h0'] at h3
              omega
            cases hsub : checked_sub (mapGet s.balances c 0) a with
            | none =>
              simpa [step, transfer, transfer_body, revertOnErr, hp, hbl, h2, h3, hsub]
                using h0
            | some ncb =>
              cases haddt : checked_add (mapGet s.balances t 0) a with
              | none =>
                simpa [step, transfer, transfer_body, revertOnErr, hp, hbl, h2, h3, hsub,
                  haddt] using h0
              | some ntb =>
                simp [step, transfer, transfer_body, revertOnErr, hp, hbl, h2, h3, hsub,
                  haddt, balance_of]
                rw [mapGet_mapInsert_ne (mapInsert s.balances c ncb) t acc ntb 0 ht,
                  mapGet_mapInsert_ne s.balances c acc ncb 0 hc]
                exact h0'

/-- Along any trace of calls none of which credits `acc`, the balance of
`acc` stays zero. -/
theorem balance_zero_trace (acc : Nat) (ops : List Op) :
    ∀ s : SimpleToken, balance_of s acc = 0 →
      (∀ op ∈ ops, Op.recipient op ≠ acc) →
      balance_of (execTrace s ops) acc = 0 := by
  induction ops with
  | nil =>
    intro s h0 _
    exact h0
  | cons op tl ih =>
    intro s h0 hops
    have hstep := balance_zero_step s op acc h0 (hops op (by simp))
    have htl : ∀ o ∈ tl, Op.recipient o ≠ acc := fun o ho => hops o (by simp [ho])
    simpa [execTrace] using ih (step s op) hstep htl

/-- C10: `balance_of` returns the stored balance with default `0` (it is a
pure read: no error, no state change, as its type shows), and an account that
is never the recipient of any call in a trace from the fresh ledger reads as
zero. -/
theorem balance_of_stored_default_zero :
    (∀ (s : SimpleToken) (account : Nat),
       balance_of s account = mapGet s.balances account 0) ∧
    (∀ (s : SimpleToken) (caller account : Nat),
       dispatch s caller (Message.balance_of account) =
         (Response.amount (balance_of s account), s)) ∧
    (∀ (creator : Nat) (ops : List Op) (account : Nat),
       (∀ op ∈ ops, Op.recipient op ≠ account) →
       balance_of (execTrace (new creator) ops) account = 0) := by
  refine ⟨fun _ _ => rfl, fun _ _ _ => rfl, ?_⟩
  intro creator ops account hops
  exact balance_zero_trace account ops (new creator) rfl hops

/-- Witness for C10: account `2` is never credited along the trace
`[mint(owner, 1, 5)]`, so it reads as zero afterwards. -/
theorem balance_of_stored_default_zero_witness :
    balance_of (execTrace (new 0) [Op.mint 0 1 5]) 2 = 0 :=
  balance_of_stored_default_zero.2.2 0 [Op.mint 0 1 5] 2 (by decide)

end simple_token
